import Mathlib

/-!
Verification of the offline-first taskmaster synchronization engine.

This file gives a shallow embedding of the server's sync core and settles the
specification's claims about it.  The embedded components:

* `backend/sync/utils.py` — vector-clock algebra (`compare_vector_clocks`,
  `merge_vector_clocks`), `detect_conflict`, `get_organization_vector_clock`.
* `backend/sync/views.py` — the push pipeline (`_create_task`, `_update_task`,
  `_delete_task`, `_process_task_changes`, the comment analogues) and
  `sync_pull`'s query filters.
* `backend/tasks/models.py` — `Task.save` / `Task.calculate_checksum`.

Modelling conventions:

* A Python dict used as a vector clock is an association list
  `List (String × Nat)`; dict lookup with default 0 is `vcGet`.  Python dict
  equality ignores insertion order, so every clock the embedded code builds
  (merges, aggregates) is keyed on the union of the input keys in a canonical
  order (byte-wise sorted, `strLe`), which is a canonical representative of
  the dict; list equality of such canonical clocks is dict equality.
* Database rows are structures; a table is a `List` of rows; a Django
  `.get(...)`/`.filter(...)` is `List.find?`/`List.filter` with the same
  predicate.  `objects` (the default manager) adds the `deleted_at IS NULL`
  filter exactly where the Python manager does; `all_objects` does not.
* Timestamps are milliseconds as `Nat`; `version` (a Django IntegerField fed
  from client payloads) is `Int`; SHA-256 is an abstract parameter
  `hash : TaskContent → String` applied to the canonical content record that
  `Task.calculate_checksum` serializes (the JSON rendering is injective on
  that record, so the abstraction is faithful for every claim below).
* Raised Python exceptions are `Except` errors; `_process_*_changes` catches
  them exactly as the `try/except` blocks in the source do.
* Payload dicts are structures of `Option` fields: `none` is an absent key,
  mirroring `data.get(k, default)` / `k in data`.  For the fields the
  serializer can emit as JSON `null` while the key is present
  (`description`, `due_date`, `assigned_to`) the field is doubly optional.
* The per-request `SyncLog` bookkeeping and the device-clock merge of
  `sync_push` steps 4–5 touch no claim and are not modelled.
-/

namespace TaskSync

/-- Byte-wise lexicographic order on character lists, the canonical order used
to list a dict's keys deterministically. -/
def strLeGo : List Char → List Char → Bool
  | [], _ => true
  | _ :: _, [] => false
  | x :: xs, y :: ys =>
    if x < y then true
    else if y < x then false
    else strLeGo xs ys

/-- Byte-wise lexicographic order on strings. -/
def strLe (a b : String) : Bool := strLeGo a.data b.data

/-- `strLe` as a relation, for the sorting lemmas. -/
def strLeR (a b : String) : Prop := strLe a b = true

/-- Insert a key into a `strLe`-sorted list of keys. -/
def insortKey (d : String) : List String → List String
  | [] => [d]
  | x :: xs => if strLe d x then d :: x :: xs else x :: insortKey d xs

/-- Sort a list of keys by `strLe` (insertion sort). -/
def sortKeys (l : List String) : List String := l.foldr insortKey []

/-- A vector clock: Python dict from device id to counter, as an association
list. Missing keys read as zero. -/
abbrev VectorClock := List (String × Nat)

/-- Dict lookup `clock.get(device_id, 0)`. -/
def vcGet (c : VectorClock) (d : String) : Nat :=
  match c.find? (fun p => p.1 == d) with
  | some p => p.2
  | none => 0

/-- The keys of a clock. -/
def vcKeys (c : VectorClock) : List String := c.map Prod.fst

/-- The device-id set `set(clock1.keys()) | set(clock2.keys())` that both
`compare_vector_clocks` and `merge_vector_clocks` iterate over, listed in
canonical order. -/
def allDevices (c1 c2 : VectorClock) : List String :=
  sortKeys ((vcKeys c1 ++ vcKeys c2).dedup)

/-- `ClockRelation` of `sync/utils.py`. -/
inductive ClockRelation where
  | equal
  | before
  | after
  | concurrent
deriving DecidableEq, Repr

/-- The final if-chain of `compare_vector_clocks`, on the two accumulated
booleans `clock1_greater` and `clock2_greater`. -/
def relOf (clock1_greater clock2_greater : Bool) : ClockRelation :=
  if clock1_greater && clock2_greater then ClockRelation.concurrent
  else if clock1_greater then ClockRelation.after
  else if clock2_greater then ClockRelation.before
  else ClockRelation.equal

/-- `compare_vector_clocks` of `sync/utils.py`: scan every device of either
clock, record whether either side is strictly ahead somewhere, and classify. -/
def compare_vector_clocks (clock1 clock2 : VectorClock) : ClockRelation :=
  relOf ((allDevices clock1 clock2).any (fun d => decide (vcGet clock2 d < vcGet clock1 d)))
        ((allDevices clock1 clock2).any (fun d => decide (vcGet clock1 d < vcGet clock2 d)))

/-- `merge_vector_clocks` of `sync/utils.py`: every key of either clock bound
to the max of the two values. -/
def merge_vector_clocks (clock1 clock2 : VectorClock) : VectorClock :=
  (allDevices clock1 clock2).map (fun d => (d, max (vcGet clock1 d) (vcGet clock2 d)))

/-- An entity as `detect_conflict` sees it: only its `vector_clock` matters. -/
structure SyncEntity where
  vector_clock : VectorClock

/-- `detect_conflict` of `sync/utils.py`: concurrent clocks are a conflict,
every other relation is not. The `client_vector_clock` argument is accepted
but, as in the source, never read. -/
def detect_conflict (local_entity server_entity : SyncEntity)
    (client_vector_clock : VectorClock) : Bool × Option String :=
  match compare_vector_clocks local_entity.vector_clock server_entity.vector_clock with
  | ClockRelation.concurrent => (true, some "Concurrent modification detected")
  | ClockRelation.before => (false, none)
  | ClockRelation.after => (false, none)
  | ClockRelation.equal => (false, none)

/-! ### Data model (`tasks/models.py`, `sync/models.py`, `core/models.py`) -/

/-- A `Task` row: the sync-relevant columns of `tasks/models.py`.
`completed_at` and the snapshot-only serializer extras are not read by any
claim and are omitted. -/
structure TaskRow where
  id : String
  organization : String
  project : Option String
  title : String
  description : Option String
  status : String
  priority : String
  due_date : Option Nat
  assigned_to : Option String
  tags : List String
  custom_fields : List (String × String)
  position : Int
  version : Int
  vector_clock : VectorClock
  last_modified_by : String
  last_modified_device : Option String
  checksum : Option String
  created_at : Nat
  updated_at : Nat
  deleted_at : Option Nat
deriving DecidableEq, Repr

/-- The content record `Task.calculate_checksum` serializes canonically
(`json.dumps(content, sort_keys=True)`). -/
structure TaskContent where
  title : String
  description : String
  status : String
  priority : String
  due_date : Option Nat
  assigned_to : Option String
  tags : List String
  custom_fields : List (String × String)
deriving DecidableEq, Repr

/-- The dict `Task.calculate_checksum` builds: `description or ''`, due date
as-is or null, assignee id or null, `sorted(tags)`, raw custom fields. -/
def canonicalContent (t : TaskRow) : TaskContent where
  title := t.title
  description := t.description.getD ""
  status := t.status
  priority := t.priority
  due_date := t.due_date
  assigned_to := t.assigned_to
  tags := sortKeys t.tags
  custom_fields := t.custom_fields

/-- `Task.calculate_checksum`: SHA-256 (the abstract `hash`) of the canonical
content. -/
def calculate_checksum (hash : TaskContent → String) (t : TaskRow) : String :=
  hash (canonicalContent t)

/-- `Task.save`: recompute the checksum when it is unset or when the caller
passes `recalculate_checksum=True`; `updated_at` is `auto_now`. -/
def taskSave (hash : TaskContent → String) (recalculate_checksum : Bool)
    (now : Nat) (t : TaskRow) : TaskRow :=
  let t' :=
    if t.checksum = none || recalculate_checksum then
      { t with checksum := some (calculate_checksum hash t) }
    else t
  { t' with updated_at := now }

/-- A `Comment` row of `tasks/models.py`. -/
structure CommentRow where
  id : String
  task : String
  user : String
  content : String
  parent : Option String
  version : Int
  vector_clock : VectorClock
  last_modified_by : String
  last_modified_device : Option String
  is_edited : Bool
  created_at : Nat
  updated_at : Nat
  deleted_at : Option Nat
deriving DecidableEq, Repr

/-- A `Conflict` row of `sync/models.py` (the columns the claims read; the
full `local_version`/`server_version` payload snapshots are audit-only). -/
structure ConflictRow where
  entity_type : String
  entity_id : String
  device : String
  user : String
  local_vector_clock : VectorClock
  server_vector_clock : VectorClock
  conflict_reason : String
  resolution_strategy : Option String
  resolved_at : Option Nat
deriving DecidableEq, Repr

/-- A `Tombstone` row of `sync/models.py` (`entity_snapshot` is audit-only). -/
structure TombstoneRow where
  entity_type : String
  entity_id : String
  organization : String
  deleted_by : String
  deleted_from_device : Option String
  vector_clock : VectorClock
  created_at : Nat
  expires_at : Nat
deriving DecidableEq, Repr

/-- `Tombstone.save` sets `expires_at = created_at + TOMBSTONE_EXPIRY_DAYS`,
default 90 days, in milliseconds. -/
def tombstoneExpiryMs : Nat := 90 * 24 * 60 * 60 * 1000

/-- The authenticated caller: `request.user` with its organization. -/
structure UserRow where
  id : String
  organization : String
deriving DecidableEq, Repr

/-- The database state the sync views read and write. -/
structure ServerState where
  tasks : List TaskRow
  comments : List CommentRow
  conflicts : List ConflictRow
  tombstones : List TombstoneRow
deriving DecidableEq, Repr

/-! ### Push payloads (`data` dicts of `sync/views.py`) -/

/-- A task change's `data` dict: `none` is an absent key.  `description`,
`due_date` and `assigned_to` are doubly optional because the serializer can
emit them as JSON null while the key is present. -/
structure TaskData where
  id : String
  project : Option String
  title : Option String
  description : Option (Option String)
  status : Option String
  priority : Option String
  due_date : Option (Option Nat)
  assigned_to : Option (Option String)
  tags : Option (List String)
  custom_fields : Option (List (String × String))
  position : Option Int
  version : Option Int
  vector_clock : Option VectorClock
  created_at : Option Nat
deriving DecidableEq, Repr

/-- A comment change's `data` dict. -/
structure CommentData where
  id : String
  task : Option String
  content : Option String
  parent : Option String
  version : Option Int
  vector_clock : Option VectorClock
  created_at : Option Nat
deriving DecidableEq, Repr

/-- `TaskSerializer(task).data` restricted to the merge-relevant keys: every
field is present, nullable ones with their (possibly null) value. -/
def taskToData (t : TaskRow) : TaskData where
  id := t.id
  project := t.project
  title := some t.title
  description := some t.description
  status := some t.status
  priority := some t.priority
  due_date := some t.due_date
  assigned_to := some t.assigned_to
  tags := some t.tags
  custom_fields := some t.custom_fields
  position := some t.position
  version := some t.version
  vector_clock := some t.vector_clock
  created_at := some t.created_at

/-- `CommentSerializer(comment).data` restricted to the merge-relevant keys. -/
def commentToData (c : CommentRow) : CommentData where
  id := c.id
  task := some c.task
  content := some c.content
  parent := c.parent
  version := some c.version
  vector_clock := some c.vector_clock
  created_at := some c.created_at

/-! ### Auto-resolution (modelled from the spec)

`auto_resolve_task_conflict` and `auto_resolve_comment_conflict` are imported
by `sync/views.py` from `sync.utils` and exercised by `sync/tests.py`, but
their definition is not among the repository's provided files.  The
definitions below are modelled from the spec's §4.4 field-level merge policy
(and agree with every expectation in `sync/tests.py`). -/

/-- Modelled from the spec: status ranks
`todo(0) < in_progress(1) < blocked(2) < done(3) < cancelled(4)`. -/
def statusRank : String → Nat
  | "in_progress" => 1
  | "blocked" => 2
  | "done" => 3
  | "cancelled" => 4
  | _ => 0

/-- Modelled from the spec: priority ranks
`low(0) < medium(1) < high(2) < urgent(3)`. -/
def priorityRank : String → Nat
  | "medium" => 1
  | "high" => 2
  | "urgent" => 3
  | _ => 0

/-- Modelled from the spec: an equality-only field — equal values keep, a
field present on one side only keeps that side, differing values are
unresolvable (second component true). -/
def mergeEqOpt {α : Type} [DecidableEq α] (lv sv : Option α) : Option α × Bool :=
  match lv, sv with
  | some a, some b => if a = b then (some a, false) else (some a, true)
  | some a, none => (some a, false)
  | none, some b => (some b, false)
  | none, none => (none, false)

/-- Modelled from the spec: pick the value with the higher rank. -/
def pickByRank (rank : String → Nat) : Option String → Option String → Option String
  | some a, some b => some (if rank b < rank a then a else b)
  | some a, none => some a
  | none, some b => some b
  | none, none => none

/-- Modelled from the spec: earlier non-null due date wins, null loses to any
date. -/
def mergeDateVal : Option Nat → Option Nat → Option Nat
  | some x, some y => some (min x y)
  | some x, none => some x
  | none, some y => some y
  | none, none => none

/-- Modelled from the spec: the due-date rule at presence level. -/
def mergeDueDate : Option (Option Nat) → Option (Option Nat) → Option (Option Nat)
  | some a, some b => some (mergeDateVal a b)
  | some a, none => some a
  | none, some b => some b
  | none, none => none

/-- Modelled from the spec: sorted set union of tag lists. -/
def sortedUnion (l1 l2 : List String) : List String :=
  sortKeys ((l1 ++ l2).dedup)

/-- Modelled from the spec: key-wise merge of custom fields — equal values
kept, disjoint keys unioned, per-key disagreement unresolvable. -/
def mergeCustomFields (a b : List (String × String)) :
    List (String × String) × Bool :=
  let ks := sortKeys ((a.map Prod.fst ++ b.map Prod.fst).dedup)
  (ks.filterMap (fun k =>
      match a.find? (fun p => p.1 == k), b.find? (fun p => p.1 == k) with
      | some p, some _ => some (k, p.2)
      | some p, none => some (k, p.2)
      | none, some q => some (k, q.2)
      | none, none => none),
    ks.any (fun k =>
      match a.find? (fun p => p.1 == k), b.find? (fun p => p.1 == k) with
      | some p, some q => p.2 != q.2
      | _, _ => false))

/-- Modelled from the spec: `auto_resolve_task_conflict` (absent from the
provided sources; imported by `sync/views.py`, tested by `sync/tests.py`).
Field-level merge over the union of fields present in either payload, with
title/description/assignee equality-only, status/priority by rank, earlier
due date, tag union, key-wise custom fields, server-wins position.  Returns
`(resolved_data, auto_resolved, unresolvable_fields)`. -/
def auto_resolve_task_conflict (local_data server_data : TaskData) :
    TaskData × Bool × List String :=
  let titleM := mergeEqOpt local_data.title server_data.title
  let descM := mergeEqOpt local_data.description server_data.description
  let assignM := mergeEqOpt local_data.assigned_to server_data.assigned_to
  let cfM : Option (List (String × String)) × Bool :=
    match local_data.custom_fields, server_data.custom_fields with
    | some a, some b =>
      let m := mergeCustomFields a b
      (some m.1, m.2)
    | some a, none => (some a, false)
    | none, some b => (some b, false)
    | none, none => (none, false)
  let unresolvable :=
    (if titleM.2 then ["title"] else []) ++ (if descM.2 then ["description"] else [])
      ++ (if assignM.2 then ["assigned_to"] else [])
      ++ (if cfM.2 then ["custom_fields"] else [])
  let resolved : TaskData := {
    id := local_data.id
    project := none
    title := titleM.1
    description := descM.1
    status := pickByRank statusRank local_data.status server_data.status
    priority := pickByRank priorityRank local_data.priority server_data.priority
    due_date := mergeDueDate local_data.due_date server_data.due_date
    assigned_to := assignM.1
    tags :=
      match local_data.tags, server_data.tags with
      | some a, some b => some (sortedUnion a b)
      | some a, none => some a
      | none, some b => some b
      | none, none => none
    custom_fields := cfM.1
    position :=
      match server_data.position with
      | some p => some p
      | none => local_data.position
    version := none
    vector_clock := none
    created_at := none }
  (resolved, unresolvable.isEmpty, unresolvable)

/-- Modelled from the spec: `auto_resolve_comment_conflict` (absent from the
provided sources) — only `content`: equal auto-resolves, unequal is manual. -/
def auto_resolve_comment_conflict (local_data server_data : CommentData) :
    CommentData × Bool × List String :=
  let contentM := mergeEqOpt local_data.content server_data.content
  ({ local_data with content := contentM.1 }, !contentM.2,
    if contentM.2 then ["content"] else [])

/-! ### The push pipeline (`sync/views.py`) -/

/-- `Task.all_objects.get(id=task_id, organization=user.organization)`. -/
def taskLookupAll (ts : List TaskRow) (task_id org : String) : Option TaskRow :=
  ts.find? (fun t => t.id == task_id && t.organization == org)

/-- A database UPDATE of one task row, matched by primary key. -/
def replaceTask (ts : List TaskRow) (t' : TaskRow) : List TaskRow :=
  ts.map (fun t => if t.id == t'.id then t' else t)

/-- A database UPDATE of one comment row, matched by primary key. -/
def replaceComment (cs : List CommentRow) (c' : CommentRow) : List CommentRow :=
  cs.map (fun c => if c.id == c'.id then c' else c)

/-- `_create_task`: build a row from the payload (defaults as in the source)
and INSERT it.  A payload without `title` raises `KeyError`; an INSERT whose
primary key already exists raises `IntegrityError` (the model's pk has a
default, so Django forces an insert for a fresh instance).  Either exception
is an `error` that `_process_task_changes` catches and skips. -/
def create_task (hash : TaskContent → String) (st : ServerState) (data : TaskData)
    (user : UserRow) (device : String) (now : Nat) :
    Except Unit (ServerState × TaskRow) :=
  match data.title with
  | none => Except.error ()
  | some title =>
    if st.tasks.any (fun t => t.id == data.id) then Except.error ()
    else
      let t : TaskRow := {
        id := data.id
        organization := user.organization
        project := data.project
        title := title
        description := data.description.getD none
        status := data.status.getD "todo"
        priority := data.priority.getD "medium"
        due_date := (data.due_date.getD none)
        assigned_to := data.assigned_to.getD none
        tags := data.tags.getD []
        custom_fields := data.custom_fields.getD []
        position := data.position.getD 1000
        version := data.version.getD 1
        vector_clock := data.vector_clock.getD []
        last_modified_by := user.id
        last_modified_device := some device
        checksum := none
        created_at := data.created_at.getD now
        updated_at := now
        deleted_at := none }
      let t := taskSave hash false now t
      Except.ok ({ st with tasks := st.tasks ++ [t] }, t)

/-- The no-conflict write of `_update_task` ("No conflict, apply changes"):
every present payload field overwrites, `version` and `vector_clock` are taken
from the payload, and the row is saved with `recalculate_checksum=True`. -/
def acceptRow (hash : TaskContent → String) (task : TaskRow) (data : TaskData)
    (user : UserRow) (device : String) (now : Nat) : TaskRow :=
  taskSave hash true now { task with
    title := data.title.getD task.title
    description := data.description.getD task.description
    status := data.status.getD task.status
    priority := data.priority.getD task.priority
    due_date := data.due_date.getD task.due_date
    assigned_to := data.assigned_to.getD task.assigned_to
    tags := data.tags.getD task.tags
    custom_fields := data.custom_fields.getD task.custom_fields
    position := data.position.getD task.position
    version := data.version.getD task.version
    vector_clock := data.vector_clock.getD task.vector_clock
    last_modified_by := user.id
    last_modified_device := some device }

/-- The auto-resolved write of `_update_task`: resolved fields overwrite,
`vector_clock ← merge(incoming, server)`, `version ← max(incoming, server)+1`,
saved with `recalculate_checksum=True`. -/
def autoResolveRow (hash : TaskContent → String) (task : TaskRow)
    (data resolved : TaskData) (user : UserRow) (device : String) (now : Nat) :
    TaskRow :=
  taskSave hash true now { task with
    title := resolved.title.getD task.title
    description := resolved.description.getD task.description
    status := resolved.status.getD task.status
    priority := resolved.priority.getD task.priority
    due_date := resolved.due_date.getD task.due_date
    assigned_to := resolved.assigned_to.getD task.assigned_to
    tags := resolved.tags.getD task.tags
    custom_fields := resolved.custom_fields.getD task.custom_fields
    position := resolved.position.getD task.position
    vector_clock := merge_vector_clocks (data.vector_clock.getD []) task.vector_clock
    version := max (data.version.getD 1) task.version + 1
    last_modified_by := user.id
    last_modified_device := some device }

/-- `_apply_task_resolution`: every non-protected payload field (including
`version` and `vector_clock`) is written verbatim, then the row is saved with
`recalculate_checksum=True`; no version bump of its own. -/
def applyResolutionRow (hash : TaskContent → String) (task : TaskRow)
    (resolved : TaskData) (user : UserRow) (now : Nat) : TaskRow :=
  taskSave hash true now { task with
    project := resolved.project <|> task.project
    title := resolved.title.getD task.title
    description := resolved.description.getD task.description
    status := resolved.status.getD task.status
    priority := resolved.priority.getD task.priority
    due_date := resolved.due_date.getD task.due_date
    assigned_to := resolved.assigned_to.getD task.assigned_to
    tags := resolved.tags.getD task.tags
    custom_fields := resolved.custom_fields.getD task.custom_fields
    position := resolved.position.getD task.position
    version := resolved.version.getD task.version
    vector_clock := resolved.vector_clock.getD task.vector_clock
    last_modified_by := user.id }

/-- `_update_task` of `sync/views.py`: look the row up in the caller's
organization (soft-deleted included); create it when absent; otherwise run
`detect_conflict` and, on conflict, the auto-resolver; on no conflict apply
the payload. Returns the surfaced conflict, if any. -/
def update_task (hash : TaskContent → String) (st : ServerState) (data : TaskData)
    (user : UserRow) (device : String) (client_vector_clock : VectorClock)
    (now : Nat) : Except Unit (ServerState × Option ConflictRow) :=
  match taskLookupAll st.tasks data.id user.organization with
  | none => (create_task hash st data user device now).map (fun p => (p.1, none))
  | some task =>
    let det := detect_conflict ⟨data.vector_clock.getD []⟩ ⟨task.vector_clock⟩
      client_vector_clock
    if det.1 then
      let server_data := taskToData task
      let res := auto_resolve_task_conflict data server_data
      if res.2.1 then
        let t' := autoResolveRow hash task data res.1 user device now
        let cr : ConflictRow := {
          entity_type := "task", entity_id := task.id, device := device,
          user := user.id, local_vector_clock := data.vector_clock.getD [],
          server_vector_clock := t'.vector_clock,
          conflict_reason := det.2.getD "",
          resolution_strategy := some "auto_resolved", resolved_at := some now }
        Except.ok ({ st with
          tasks := replaceTask st.tasks t'
          conflicts := st.conflicts ++ [cr] }, none)
      else
        let cr : ConflictRow := {
          entity_type := "task", entity_id := task.id, device := device,
          user := user.id, local_vector_clock := data.vector_clock.getD [],
          server_vector_clock := task.vector_clock,
          conflict_reason := det.2.getD "" ++ ". Unresolvable fields: "
            ++ String.intercalate ", " res.2.2,
          resolution_strategy := none, resolved_at := none }
        Except.ok ({ st with conflicts := st.conflicts ++ [cr] }, some cr)
    else
      Except.ok ({ st with
        tasks := replaceTask st.tasks (acceptRow hash task data user device now) }, none)

/-- `_delete_task`: look the live row up in the caller's organization
(`Task.objects`, soft-deleted excluded; absent is a silent no-op), soft-delete
it and write a tombstone with the payload's clock. -/
def delete_task (st : ServerState) (task_id : String) (data : TaskData)
    (user : UserRow) (device : String) (now : Nat) :
    ServerState × Option ConflictRow :=
  match st.tasks.find? (fun t => t.deleted_at == none && t.id == task_id
      && t.organization == user.organization) with
  | none => (st, none)
  | some task =>
    let task := { task with deleted_at := some now, updated_at := now }
    let tb : TombstoneRow := {
      entity_type := "task", entity_id := task.id,
      organization := user.organization, deleted_by := user.id,
      deleted_from_device := some device,
      vector_clock := data.vector_clock.getD [],
      created_at := now, expires_at := now + tombstoneExpiryMs }
    ({ st with
      tasks := replaceTask st.tasks task
      tombstones := st.tombstones ++ [tb] }, none)

/-- One entry of `changes['tasks']`. -/
structure TaskChange where
  id : String
  operation : String
  data : TaskData
deriving DecidableEq, Repr

/-- `_process_task_changes`: apply each change in order, collecting surfaced
conflicts and processed ids; a raised exception logs and skips the change. -/
def process_task_changes (hash : TaskContent → String) (st : ServerState)
    (changes : List TaskChange) (user : UserRow) (device : String)
    (client_vector_clock : VectorClock) (now : Nat) :
    ServerState × List ConflictRow × List String :=
  changes.foldl (fun acc change =>
    let s := acc.1
    let conflicts := acc.2.1
    let processed := acc.2.2
    match change.operation with
    | "create" =>
      match create_task hash s change.data user device now with
      | Except.ok (s', t) => (s', conflicts, processed ++ [t.id])
      | Except.error _ => (s, conflicts, processed)
    | "update" =>
      match update_task hash s change.data user device client_vector_clock now with
      | Except.ok (s', some c) => (s', conflicts ++ [c], processed)
      | Except.ok (s', none) => (s', conflicts, processed ++ [change.id])
      | Except.error _ => (s, conflicts, processed)
    | "delete" =>
      match delete_task s change.id change.data user device now with
      | (s', some c) => (s', conflicts ++ [c], processed)
      | (s', none) => (s', conflicts, processed ++ [change.id])
    | _ => (s, conflicts, processed)) (st, [], [])

/-- The exceptions a comment change can raise: `ParentDeletedError` (caught
and counted processed) or anything else (caught and skipped). -/
inductive CommentError where
  | parentDeleted
  | other
deriving DecidableEq, Repr

/-- `_create_comment`: raise `ParentDeletedError` when the payload names a
parent task that is absent from the caller's organization or soft-deleted;
otherwise INSERT the comment (missing `task`/`content` keys or a duplicate id
raise and are skipped by the caller). -/
def create_comment (st : ServerState) (data : CommentData) (user : UserRow)
    (device : String) (now : Nat) :
    Except CommentError (ServerState × CommentRow) :=
  let parentCheck : Except CommentError Unit :=
    match data.task with
    | some tid =>
      match st.tasks.find? (fun t => t.id == tid
          && t.organization == user.organization) with
      | some t => if t.deleted_at.isSome then Except.error CommentError.parentDeleted
                  else Except.ok ()
      | none => Except.error CommentError.parentDeleted
    | none => Except.ok ()
  parentCheck.bind (fun _ =>
    match data.task, data.content with
    | some tid, some content =>
      if st.comments.any (fun c => c.id == data.id) then
        Except.error CommentError.other
      else
        let c : CommentRow := {
          id := data.id, task := tid, user := user.id, content := content,
          parent := data.parent, version := data.version.getD 1,
          vector_clock := data.vector_clock.getD [],
          last_modified_by := user.id, last_modified_device := some device,
          is_edited := false, created_at := data.created_at.getD now,
          updated_at := now, deleted_at := none }
        Except.ok ({ st with comments := st.comments ++ [c] }, c)
    | _, _ => Except.error CommentError.other)

/-- `_update_comment`: the lookup is `Comment.all_objects.get(id=comment_id)`
with NO organization filter; a soft-deleted parent raises
`ParentDeletedError`; then conflict detection and the comment auto-resolver
exactly as for tasks. -/
def update_comment (st : ServerState) (data : CommentData) (user : UserRow)
    (device : String) (client_vector_clock : VectorClock) (now : Nat) :
    Except CommentError (ServerState × Option ConflictRow) :=
  match st.comments.find? (fun c => c.id == data.id) with
  | none => (create_comment st data user device now).map (fun p => (p.1, none))
  | some comment =>
    match st.tasks.find? (fun t => t.id == comment.task) with
    | none => Except.error CommentError.other
    | some parent =>
      if parent.deleted_at.isSome then Except.error CommentError.parentDeleted
      else
        let det := detect_conflict ⟨data.vector_clock.getD []⟩
          ⟨comment.vector_clock⟩ client_vector_clock
        if det.1 then
          let server_data := commentToData comment
          let res := auto_resolve_comment_conflict data server_data
          if res.2.1 then
            let c' : CommentRow := { comment with
              content := res.1.content.getD comment.content,
              vector_clock := merge_vector_clocks (data.vector_clock.getD [])
                comment.vector_clock,
              version := max (data.version.getD 1) comment.version + 1,
              last_modified_by := user.id, last_modified_device := some device,
              is_edited := true, updated_at := now }
            Except.ok ({ st with comments := replaceComment st.comments c' }, none)
          else
            let cr : ConflictRow := {
              entity_type := "comment", entity_id := comment.id,
              device := device, user := user.id,
              local_vector_clock := data.vector_clock.getD [],
              server_vector_clock := comment.vector_clock,
              conflict_reason := det.2.getD "" ++ ". Unresolvable fields: "
                ++ String.intercalate ", " res.2.2,
              resolution_strategy := none, resolved_at := none }
            Except.ok ({ st with conflicts := st.conflicts ++ [cr] }, some cr)
        else
          let c' : CommentRow := { comment with
            content := data.content.getD comment.content,
            version := data.version.getD comment.version,
            vector_clock := data.vector_clock.getD comment.vector_clock,
            last_modified_by := user.id, last_modified_device := some device,
            is_edited := true, updated_at := now }
          Except.ok ({ st with comments := replaceComment st.comments c' }, none)

/-- `_delete_comment`: `Comment.objects.get(id=comment_id)` — live rows only,
NO organization filter; absent is swallowed; otherwise soft-delete and write a
tombstone under the caller's organization. -/
def delete_comment (st : ServerState) (comment_id : String) (data : CommentData)
    (user : UserRow) (device : String) (now : Nat) : ServerState :=
  match st.comments.find? (fun c => c.deleted_at == none && c.id == comment_id) with
  | none => st
  | some comment =>
    let c' := { comment with deleted_at := some now, updated_at := now }
    let tb : TombstoneRow := {
      entity_type := "comment", entity_id := comment.id,
      organization := user.organization, deleted_by := user.id,
      deleted_from_device := some device,
      vector_clock := data.vector_clock.getD [],
      created_at := now, expires_at := now + tombstoneExpiryMs }
    { st with
      comments := replaceComment st.comments c'
      tombstones := st.tombstones ++ [tb] }

/-- One entry of `changes['comments']`. -/
structure CommentChange where
  id : String
  operation : String
  data : CommentData
deriving DecidableEq, Repr

/-- `_process_comment_changes`: as for tasks, but `ParentDeletedError` counts
the change as processed (orphan cleanup) while other exceptions skip it. -/
def process_comment_changes (st : ServerState) (changes : List CommentChange)
    (user : UserRow) (device : String) (client_vector_clock : VectorClock)
    (now : Nat) : ServerState × List ConflictRow × List String :=
  changes.foldl (fun acc change =>
    let s := acc.1
    let conflicts := acc.2.1
    let processed := acc.2.2
    match change.operation with
    | "create" =>
      match create_comment s change.data user device now with
      | Except.ok (s', c) => (s', conflicts, processed ++ [c.id])
      | Except.error CommentError.parentDeleted => (s, conflicts, processed ++ [change.id])
      | Except.error CommentError.other => (s, conflicts, processed)
    | "update" =>
      match update_comment s change.data user device client_vector_clock now with
      | Except.ok (s', some c) => (s', conflicts ++ [c], processed)
      | Except.ok (s', none) => (s', conflicts, processed ++ [change.id])
      | Except.error CommentError.parentDeleted => (s, conflicts, processed ++ [change.id])
      | Except.error CommentError.other => (s, conflicts, processed)
    | "delete" =>
      (delete_comment s change.id change.data user device now, conflicts,
        processed ++ [change.id])
    | _ => (s, conflicts, processed)) (st, [], [])

/-! ### Organization vector clock and pull (`sync/utils.py`, `sync/views.py`) -/

/-- The organization a comment belongs to, through its task
(`task__organization_id`). -/
def commentOrgIs (tasks : List TaskRow) (c : CommentRow) (org : String) : Bool :=
  match tasks.find? (fun t => t.id == c.task) with
  | some t => t.organization == org
  | none => false

/-- `get_organization_vector_clock` of `sync/utils.py`: merge the clocks of
every task (`Task.all_objects`, soft-deleted INCLUDED) and every comment
(`Comment.all_objects`, scoped by task organization) of the organization,
skipping falsy (empty) clocks. -/
def get_organization_vector_clock (st : ServerState) (organization_id : String) :
    VectorClock :=
  (st.comments.filter (fun c => commentOrgIs st.tasks c organization_id)).foldl
    (fun acc c => if c.vector_clock.isEmpty then acc
      else merge_vector_clocks acc c.vector_clock)
    ((st.tasks.filter (fun t => t.organization == organization_id)).foldl
      (fun acc t => if t.vector_clock.isEmpty then acc
        else merge_vector_clocks acc t.vector_clock) [])

/-- Follows the words of claim C5, for comparison with the source's
`get_organization_vector_clock`: the merge over exactly the NON-deleted
(`deleted_at` null) tasks and comments of the organization. -/
def org_clock_of_live_entities (st : ServerState) (organization_id : String) :
    VectorClock :=
  let fromTasks := (st.tasks.filter (fun t => t.organization == organization_id
      && t.deleted_at == none)).foldl
    (fun acc t => if t.vector_clock.isEmpty then acc
      else merge_vector_clocks acc t.vector_clock) []
  (st.comments.filter (fun c => commentOrgIs st.tasks c organization_id
      && c.deleted_at == none)).foldl
    (fun acc c => if c.vector_clock.isEmpty then acc
      else merge_vector_clocks acc c.vector_clock) fromTasks

/-- Insert into a list kept ascending by a `Nat` sort key. -/
def insertByKey {α : Type} (key : α → Nat) (x : α) : List α → List α
  | [] => [x]
  | y :: ys => if key x ≤ key y then x :: y :: ys else y :: insertByKey key x ys

/-- Sort ascending by a `Nat` sort key (`order_by` of the pull queries). -/
def sortByKey {α : Type} (key : α → Nat) : List α → List α
  | [] => []
  | x :: xs => insertByKey key x (sortByKey key xs)

/-- The body `sync_pull` returns. -/
structure PullResponse where
  tasks : List TaskRow
  comments : List CommentRow
  tombstones : List TombstoneRow
  serverVectorClock : VectorClock
  hasMore : Bool
deriving Repr

/-- `sync_pull` of `sync/views.py`: org-scoped rows updated after `since`,
excluding the caller's own device (Django's negated filter keeps NULL
devices), ordered ascending, truncated at `limit`; tombstones additionally
require `expires_at > now`. -/
def sync_pull (st : ServerState) (user : UserRow) (device : String)
    (since limit now : Nat) : PullResponse :=
  let tasks := (sortByKey (fun t => t.updated_at) (st.tasks.filter (fun t =>
    t.organization == user.organization && since < t.updated_at
      && !(t.last_modified_device == some device)))).take limit
  let comments := (sortByKey (fun c => c.updated_at) (st.comments.filter (fun c =>
    commentOrgIs st.tasks c user.organization && since < c.updated_at
      && !(c.last_modified_device == some device)))).take limit
  let tombstones := (sortByKey (fun tb => tb.created_at) (st.tombstones.filter (fun tb =>
    tb.organization == user.organization && since < tb.created_at
      && now < tb.expires_at
      && !(tb.deleted_from_device == some device)))).take limit
  { tasks := tasks, comments := comments, tombstones := tombstones,
    serverVectorClock := get_organization_vector_clock st user.organization,
    hasMore := tasks.length == limit || comments.length == limit }

/-! ### Concrete scenario data, used by the closed instances below -/

/-- A constant stand-in hash, enough for the concrete scenarios (no claim
evaluates the hash itself). -/
def hash0 : TaskContent → String := fun _ => "h"

/-- A payload dict carrying only the id. -/
def emptyTaskData (id : String) : TaskData where
  id := id
  project := none
  title := none
  description := none
  status := none
  priority := none
  due_date := none
  assigned_to := none
  tags := none
  custom_fields := none
  position := none
  version := none
  vector_clock := none
  created_at := none

/-- A comment payload dict carrying only the id. -/
def emptyCommentData (id : String) : CommentData where
  id := id
  task := none
  content := none
  parent := none
  version := none
  vector_clock := none
  created_at := none

/-- A plain stored task row for the concrete scenarios. -/
def baseTask (id org title : String) (version : Int) (vc : VectorClock) : TaskRow where
  id := id
  organization := org
  project := none
  title := title
  description := none
  status := "todo"
  priority := "medium"
  due_date := none
  assigned_to := none
  tags := []
  custom_fields := []
  position := 1000
  version := version
  vector_clock := vc
  last_modified_by := "u0"
  last_modified_device := none
  checksum := some "h"
  created_at := 1
  updated_at := 2
  deleted_at := none

/-- A plain stored comment row for the concrete scenarios. -/
def baseComment (id task content : String) (version : Int) (vc : VectorClock) :
    CommentRow where
  id := id
  task := task
  user := "u0"
  content := content
  parent := none
  version := version
  vector_clock := vc
  last_modified_by := "u0"
  last_modified_device := none
  is_edited := false
  created_at := 1
  updated_at := 2
  deleted_at := none

/-- Scenario "client behind" (spec §8 scenario 2): server clock `{A:2}`. -/
def stBehind : ServerState :=
  ⟨[baseTask "t1" "org1" "Server title" 3 [("A", 2)]], [], [], []⟩

/-- The stale payload pushed against `stBehind`: clock `{A:1}`. -/
def dataBehind : TaskData :=
  { emptyTaskData "t1" with
    title := some "Old title"
    version := some 1
    vector_clock := some [("A", 1)] }

/-- Scenario "concurrent, auto-resolvable" (spec §8 scenario 4): server row. -/
def task4 : TaskRow := baseTask "t4" "org" "T" 7 [("S", 5)]

/-- State holding `task4`. -/
def stConc : ServerState := ⟨[task4], [], [], []⟩

/-- The concurrent auto-resolvable payload: same title, `in_progress`. -/
def data4 : TaskData :=
  { emptyTaskData "t4" with
    title := some "T"
    status := some "in_progress"
    priority := some "medium"
    version := some 1
    vector_clock := some [("D", 3)] }

/-- The concurrent unresolvable payload (spec §8 scenario 5): new title. -/
def data5 : TaskData :=
  { emptyTaskData "t4" with
    title := some "Client Title"
    status := some "todo"
    priority := some "medium"
    version := some 1
    vector_clock := some [("D", 3)] }

/-- Cross-organization scenario: a task and its comment living in `orgB`. -/
def stIso : ServerState :=
  ⟨[baseTask "t9" "orgB" "B task" 1 [("b", 1)]],
    [baseComment "c9" "t9" "original" 1 [("b", 1)]], [], []⟩

/-- A caller from `orgA`. -/
def userA : UserRow := ⟨"uA", "orgA"⟩

/-- The cross-organization comment update payload (causally newer). -/
def dataC4 : CommentData :=
  { emptyCommentData "c9" with
    content := some "hacked"
    version := some 2
    vector_clock := some [("b", 2)] }

/-- Orphan-comment scenario (spec §8 scenario 6): the parent task is
soft-deleted. -/
def stOrphan : ServerState :=
  ⟨[{ baseTask "tD" "org" "Task to delete" 1 [("server", 1)] with deleted_at := some 10 }],
    [], [], []⟩

/-- The orphan comment create change. -/
def changeOrphan : CommentChange :=
  ⟨"cNew", "create",
    { emptyCommentData "cNew" with
      task := some "tD"
      content := some "Comment on deleted task"
      version := some 1
      vector_clock := some [("d", 1)]
      created_at := some 5 }⟩

/-- Version-regression scenario: server row at version 5, clock `{a:1}`. -/
def stVer : ServerState := ⟨[baseTask "t8" "org" "Server" 5 [("a", 1)]], [], [], []⟩

/-- A causally newer payload carrying the lower version 1. -/
def dataVer : TaskData :=
  { emptyTaskData "t8" with
    title := some "Newer"
    version := some 1
    vector_clock := some [("a", 2)] }

/-- Soft-deleted-entity scenario for the organization clock: one deleted task
with a non-empty clock. -/
def stDel : ServerState :=
  ⟨[{ baseTask "tDel" "o" "X" 1 [("a", 2)] with deleted_at := some 5 }], [], [], []⟩

/-! ### Outcome predicates for the push-update claims -/

/-- The outcome claim C2 asserts for a concurrent, auto-resolvable update of
an existing task whose payload carries status `ls`: the server stores the
field-level merge `r` (status by rank, merged clock, `max`+1 version), records
an `auto_resolved` conflict row, and surfaces nothing. -/
def autoMergeOutcome (hash : TaskContent → String) (st : ServerState)
    (data : TaskData) (user : UserRow) (device : String) (cvc : VectorClock)
    (now : Nat) (task : TaskRow) (ls : String) : Prop :=
  ∃ r cr,
    r = autoResolveRow hash task data
      (auto_resolve_task_conflict data (taskToData task)).1 user device now ∧
    update_task hash st data user device cvc now =
      Except.ok ({ st with
        tasks := replaceTask st.tasks r
        conflicts := st.conflicts ++ [cr] }, none) ∧
    cr.resolution_strategy = some "auto_resolved" ∧
    cr.entity_type = "task" ∧
    cr.entity_id = data.id ∧
    cr.resolved_at = some now ∧
    r.status = (if statusRank task.status < statusRank ls then ls
      else task.status) ∧
    r.vector_clock = merge_vector_clocks (data.vector_clock.getD [])
      task.vector_clock ∧
    r.version = max (data.version.getD 1) task.version + 1 ∧
    task.version < r.version

/-- The outcome claim C3 asserts for a concurrent update with unresolvable
fields: a conflict row with the claimed reason string is persisted AND
returned, and the stored tasks are untouched. -/
def surfacedConflictOutcome (hash : TaskContent → String) (st : ServerState)
    (data : TaskData) (user : UserRow) (device : String) (cvc : VectorClock)
    (now : Nat) (task : TaskRow) : Prop :=
  ∃ cr,
    update_task hash st data user device cvc now =
      Except.ok ({ st with conflicts := st.conflicts ++ [cr] }, some cr) ∧
    cr.conflict_reason = "Concurrent modification detected. Unresolvable fields: "
      ++ String.intercalate ", " (auto_resolve_task_conflict data (taskToData task)).2.2 ∧
    cr.entity_type = "task" ∧
    cr.entity_id = data.id ∧
    cr.resolution_strategy = none ∧
    cr.resolved_at = none ∧
    ({ st with conflicts := st.conflicts ++ [cr] } : ServerState).tasks = st.tasks

/-! ### Order and sorting lemmas for the canonical key order -/

theorem strLeGo_total (a b : List Char) : strLeGo a b = true ∨ strLeGo b a = true := by
  induction a generalizing b with
  | nil => exact Or.inl rfl
  | cons x xs ih =>
    cases b with
    | nil => exact Or.inr rfl
    | cons y ys =>
      rcases lt_trichotomy x y with h | h | h
      · left
        simp [strLeGo, h]
      · subst h
        rcases ih ys with h' | h' <;> [left; right] <;> simp [strLeGo, lt_irrefl, h']
      · right
        simp [strLeGo, h]

theorem strLeGo_antisymm {a b : List Char} (h1 : strLeGo a b = true)
    (h2 : strLeGo b a = true) : a = b := by
  induction a generalizing b with
  | nil =>
    cases b with
    | nil => rfl
    | cons y ys => simp [strLeGo] at h2
  | cons x xs ih =>
    cases b with
    | nil => simp [strLeGo] at h1
    | cons y ys =>
      rcases lt_trichotomy x y with h | h | h
      · rw [strLeGo, if_neg (lt_asymm h), if_pos h] at h2
        exact absurd h2 (by simp)
      · subst h
        rw [strLeGo, if_neg (lt_irrefl x), if_neg (lt_irrefl x)] at h1 h2
        rw [ih h1 h2]
      · rw [strLeGo, if_neg (lt_asymm h), if_pos h] at h1
        exact absurd h1 (by simp)

theorem strLeGo_trans {a b c : List Char} (h1 : strLeGo a b = true)
    (h2 : strLeGo b c = true) : strLeGo a c = true := by
  induction a generalizing b c with
  | nil => rfl
  | cons x xs ih =>
    cases b with
    | nil => simp [strLeGo] at h1
    | cons y ys =>
      cases c with
      | nil => simp [strLeGo] at h2
      | cons z zs =>
        rcases lt_trichotomy x y with hxy | hxy | hxy
        · rcases lt_trichotomy y z with hyz | hyz | hyz
          · simp [strLeGo, lt_trans hxy hyz]
          · subst hyz
            simp [strLeGo, hxy]
          · rw [strLeGo, if_neg (lt_asymm hyz), if_pos hyz] at h2
            exact absurd h2 (by simp)
        · subst hxy
          rcases lt_trichotomy x z with hyz | hyz | hyz
          · simp [strLeGo, hyz]
          · subst hyz
            rw [strLeGo, if_neg (lt_irrefl x), if_neg (lt_irrefl x)] at h1 h2
            rw [strLeGo, if_neg (lt_irrefl x), if_neg (lt_irrefl x)]
            exact ih h1 h2
          · rw [strLeGo, if_neg (lt_asymm hyz), if_pos hyz] at h2
            exact absurd h2 (by simp)
        · rw [strLeGo, if_neg (lt_asymm hxy), if_pos hxy] at h1
          exact absurd h1 (by simp)

theorem strLe_total (a b : String) : strLe a b = true ∨ strLe b a = true :=
  strLeGo_total a.data b.data

theorem strLe_antisymm {a b : String} (h1 : strLe a b = true)
    (h2 : strLe b a = true) : a = b := by
  have h := strLeGo_antisymm h1 h2
  cases a
  cases b
  simp only at h
  rw [h]

instance : IsAntisymm String strLeR := ⟨fun _ _ => strLe_antisymm⟩

theorem mem_insortKey {d a : String} {l : List String} :
    a ∈ insortKey d l ↔ a = d ∨ a ∈ l := by
  induction l with
  | nil => simp [insortKey]
  | cons x xs ih =>
    by_cases h : strLe d x = true
    · simp [insortKey, h, List.mem_cons]
    · simp only [insortKey, if_neg h, List.mem_cons, ih]
      tauto

theorem perm_insortKey (d : String) (l : List String) :
    List.Perm (insortKey d l) (d :: l) := by
  induction l with
  | nil => rfl
  | cons x xs ih =>
    by_cases h : strLe d x = true
    · simp [insortKey, h]
    · simp only [insortKey, if_neg h]
      exact (ih.cons x).trans (List.Perm.swap d x xs)

theorem sorted_insortKey {d : String} {l : List String}
    (h : l.Sorted strLeR) : (insortKey d l).Sorted strLeR := by
  induction l with
  | nil => simp [insortKey, List.Sorted]
  | cons x xs ih =>
    rw [List.sorted_cons] at h
    by_cases hd : strLe d x = true
    · rw [insortKey, if_pos hd, List.sorted_cons]
      refine ⟨?_, List.sorted_cons.mpr h⟩
      intro b hb
      rcases List.mem_cons.mp hb with rfl | hb
      · exact hd
      · exact strLeGo_trans hd (h.1 b hb)
    · rw [insortKey, if_neg hd, List.sorted_cons]
      refine ⟨?_, ih h.2⟩
      intro b hb
      rcases mem_insortKey.mp hb with rfl | hb
      · rcases strLe_total b x with h' | h'
        · exact absurd h' hd
        · exact h'
      · exact h.1 b hb

theorem perm_sortKeys (l : List String) : List.Perm (sortKeys l) l := by
  induction l with
  | nil => rfl
  | cons x xs ih => exact (perm_insortKey x (sortKeys xs)).trans (ih.cons x)

theorem sorted_sortKeys (l : List String) : (sortKeys l).Sorted strLeR := by
  induction l with
  | nil => simp [sortKeys, List.Sorted]
  | cons x xs ih => exact sorted_insortKey ih

/-- Key lists with the same members, listed canonically, are equal: this is
dict equality for the canonical clocks the embedding builds. -/
theorem sortKeys_dedup_ext {l1 l2 : List String}
    (h : ∀ a, a ∈ l1 ↔ a ∈ l2) : sortKeys l1.dedup = sortKeys l2.dedup := by
  have hp : List.Perm l1.dedup l2.dedup := by
    rw [List.perm_ext_iff_of_nodup (List.nodup_dedup l1) (List.nodup_dedup l2)]
    intro a
    rw [List.mem_dedup, List.mem_dedup]
    exact h a
  exact List.eq_of_perm_of_sorted
    ((perm_sortKeys l1.dedup).trans (hp.trans (perm_sortKeys l2.dedup).symm))
    (sorted_sortKeys l1.dedup) (sorted_sortKeys l2.dedup)

/-! ### Vector-clock algebra lemmas -/

theorem vcGet_eq_zero_of_not_mem {c : VectorClock} {d : String}
    (h : d ∉ vcKeys c) : vcGet c d = 0 := by
  unfold vcGet
  rw [List.find?_eq_none.mpr]
  · intro p hp
    simp only [beq_iff_eq]
    intro he
    exact h (he ▸ List.mem_map_of_mem Prod.fst hp)

theorem mem_allDevices {c1 c2 : VectorClock} {d : String} :
    d ∈ allDevices c1 c2 ↔ d ∈ vcKeys c1 ∨ d ∈ vcKeys c2 := by
  rw [allDevices, (perm_sortKeys _).mem_iff, List.mem_dedup, List.mem_append]

theorem allDevices_comm (c1 c2 : VectorClock) :
    allDevices c1 c2 = allDevices c2 c1 := by
  unfold allDevices
  apply sortKeys_dedup_ext
  intro a
  rw [List.mem_append, List.mem_append]
  exact Or.comm

/-- Pointwise characterization of the merged dict: at every device it holds
the max of the two inputs. -/
theorem vcGet_merge (c1 c2 : VectorClock) (d : String) :
    vcGet (merge_vector_clocks c1 c2) d = max (vcGet c1 d) (vcGet c2 d) := by
  have key : ∀ (l : List String) (f : String → Nat),
      vcGet (l.map (fun k => (k, f k))) d = if d ∈ l then f d else 0 := by
    intro l f
    induction l with
    | nil => simp [vcGet]
    | cons k l ih =>
      by_cases hk : k = d
      · subst hk
        simp [vcGet, List.find?]
      · have hne : (k == d) = false := by simp [hk]
        simp only [List.map_cons, vcGet, List.find?, hne]
        simpa [vcGet, List.mem_cons, hk, Ne.symm hk] using ih
  rw [merge_vector_clocks, key]
  by_cases hd : d ∈ allDevices c1 c2
  · simp [hd]
  · have h1 : d ∉ vcKeys c1 := fun h => hd (mem_allDevices.mpr (Or.inl h))
    have h2 : d ∉ vcKeys c2 := fun h => hd (mem_allDevices.mpr (Or.inr h))
    simp [hd, vcGet_eq_zero_of_not_mem h1, vcGet_eq_zero_of_not_mem h2]

/-! ### Helper lemmas on the store operations -/

theorem taskSave_id (hash : TaskContent → String) (b : Bool) (now : Nat)
    (t : TaskRow) : (taskSave hash b now t).id = t.id := by
  unfold taskSave
  split <;> rfl

theorem taskSave_status (hash : TaskContent → String) (b : Bool) (now : Nat)
    (t : TaskRow) : (taskSave hash b now t).status = t.status := by
  unfold taskSave
  split <;> rfl

theorem taskSave_version (hash : TaskContent → String) (b : Bool) (now : Nat)
    (t : TaskRow) : (taskSave hash b now t).version = t.version := by
  unfold taskSave
  split <;> rfl

theorem taskSave_vector_clock (hash : TaskContent → String) (b : Bool) (now : Nat)
    (t : TaskRow) : (taskSave hash b now t).vector_clock = t.vector_clock := by
  unfold taskSave
  split <;> rfl

theorem taskSave_recalc_checksum (hash : TaskContent → String) (now : Nat)
    (t : TaskRow) :
    (taskSave hash true now t).checksum = some (calculate_checksum hash t) := by
  unfold taskSave
  rw [if_pos (by simp)]

theorem calculate_checksum_taskSave (hash hash' : TaskContent → String) (b : Bool)
    (now : Nat) (t : TaskRow) :
    calculate_checksum hash (taskSave hash' b now t) = calculate_checksum hash t := by
  unfold taskSave
  split <;> rfl

theorem taskLookupAll_some {ts : List TaskRow} {task_id org : String} {t : TaskRow}
    (h : taskLookupAll ts task_id org = some t) :
    t.id = task_id ∧ t.organization = org := by
  have hp := List.find?_some h
  simp only [Bool.and_eq_true, beq_iff_eq] at hp
  exact hp

theorem auto_resolve_task_resolved_iff (l s : TaskData) :
    (auto_resolve_task_conflict l s).2.1 =
      (auto_resolve_task_conflict l s).2.2.isEmpty := rfl

theorem auto_resolve_task_status (l s : TaskData) :
    (auto_resolve_task_conflict l s).1.status = pickByRank statusRank l.status s.status := rfl

/-! ### Sorting by a numeric key (the pull queries) -/

theorem mem_insertByKey' {α : Type} {key : α → Nat} {x a : α} {l : List α} :
    a ∈ insertByKey key x l ↔ a = x ∨ a ∈ l := by
  induction l with
  | nil => simp [insertByKey]
  | cons y ys ih =>
    by_cases h : key x ≤ key y
    · simp [insertByKey, h, List.mem_cons]
    · simp only [insertByKey, if_neg h, List.mem_cons, ih]
      tauto

theorem pairwise_insertByKey {α : Type} {key : α → Nat} {x : α} {l : List α}
    (h : l.Pairwise (fun a b => key a ≤ key b)) :
    (insertByKey key x l).Pairwise (fun a b => key a ≤ key b) := by
  induction l with
  | nil => simp [insertByKey]
  | cons y ys ih =>
    rw [List.pairwise_cons] at h
    by_cases hd : key x ≤ key y
    · rw [insertByKey, if_pos hd, List.pairwise_cons]
      refine ⟨?_, List.pairwise_cons.mpr h⟩
      intro b hb
      rcases List.mem_cons.mp hb with rfl | hb
      · exact hd
      · exact le_trans hd (h.1 b hb)
    · rw [insertByKey, if_neg hd, List.pairwise_cons]
      refine ⟨?_, ih h.2⟩
      intro b hb
      rcases mem_insertByKey'.mp hb with rfl | hb
      · exact le_of_not_le hd
      · exact h.1 b hb

theorem mem_sortByKey {α : Type} {key : α → Nat} {a : α} {l : List α} :
    a ∈ sortByKey key l ↔ a ∈ l := by
  induction l with
  | nil => simp [sortByKey]
  | cons x xs ih =>
    rw [sortByKey, mem_insertByKey', List.mem_cons, ih]

theorem pairwise_sortByKey {α : Type} (key : α → Nat) (l : List α) :
    (sortByKey key l).Pairwise (fun a b => key a ≤ key b) := by
  induction l with
  | nil => simp [sortByKey]
  | cons x xs ih => exact pairwise_insertByKey ih

/-! ### Aggregation of the organization clock -/

theorem vcGet_foldl_rows {α : Type} (f : α → VectorClock) (rows : List α)
    (init : VectorClock) (d : String) :
    vcGet (rows.foldl (fun acc r => if (f r).isEmpty then acc
        else merge_vector_clocks acc (f r)) init) d
      = rows.foldl (fun n r => max n (vcGet (f r) d)) (vcGet init d) := by
  induction rows generalizing init with
  | nil => rfl
  | cons r rs ih =>
    simp only [List.foldl_cons]
    by_cases h : (f r).isEmpty
    · rw [if_pos h, ih]
      have h0 : vcGet (f r) d = 0 := by
        rw [List.isEmpty_iff] at h
        rw [h]
        rfl
      rw [h0, Nat.max_zero]
    · rw [if_neg h, ih, vcGet_merge]

/-! ### Algebraic facts about compare and merge -/

theorem compare_self (A : VectorClock) :
    compare_vector_clocks A A = ClockRelation.equal := by
  have h : (allDevices A A).any (fun d => decide (vcGet A d < vcGet A d)) = false := by
    rw [List.any_eq_false]
    intro d _
    simp
  rw [compare_vector_clocks, h]
  rfl

theorem compare_after_iff_before (A B : VectorClock) :
    compare_vector_clocks A B = ClockRelation.after ↔
      compare_vector_clocks B A = ClockRelation.before := by
  rw [compare_vector_clocks, compare_vector_clocks, allDevices_comm B A]
  cases h1 : (allDevices A B).any (fun d => decide (vcGet B d < vcGet A d)) <;>
    cases h2 : (allDevices A B).any (fun d => decide (vcGet A d < vcGet B d)) <;>
      simp [relOf]

theorem merge_comm (A B : VectorClock) :
    merge_vector_clocks A B = merge_vector_clocks B A := by
  rw [merge_vector_clocks, merge_vector_clocks, allDevices_comm B A]
  apply List.map_congr_left
  intro d _
  rw [Nat.max_comm]

theorem compare_merge_left (A B : VectorClock) :
    compare_vector_clocks (merge_vector_clocks A B) A = ClockRelation.after ∨
      compare_vector_clocks (merge_vector_clocks A B) A = ClockRelation.equal := by
  rw [compare_vector_clocks]
  have h2 : (allDevices (merge_vector_clocks A B) A).any
      (fun d => decide (vcGet (merge_vector_clocks A B) d < vcGet A d)) = false := by
    rw [List.any_eq_false]
    intro d _
    rw [vcGet_merge]
    simp
  rw [h2]
  cases h1 : (allDevices (merge_vector_clocks A B) A).any
      (fun d => decide (vcGet A d < vcGet (merge_vector_clocks A B) d)) <;>
    simp [relOf]

/-! ### Claim theorems -/

/-- C9: the vector-clock algebra — `Compare(A,B) = AFTER ⇔ Compare(B,A) =
BEFORE`; `Compare(A,A) = EQUAL`; `Merge(A,B) = Merge(B,A)` (dict equality of
the canonical representatives); `Compare(Merge(A,B), A) ∈ {AFTER, EQUAL}`. -/
theorem vector_clock_algebra (A B : VectorClock) :
    (compare_vector_clocks A B = ClockRelation.after ↔
      compare_vector_clocks B A = ClockRelation.before) ∧
    compare_vector_clocks A A = ClockRelation.equal ∧
    merge_vector_clocks A B = merge_vector_clocks B A ∧
    (compare_vector_clocks (merge_vector_clocks A B) A = ClockRelation.after ∨
      compare_vector_clocks (merge_vector_clocks A B) A = ClockRelation.equal) :=
  ⟨compare_after_iff_before A B, compare_self A, merge_comm A B,
    compare_merge_left A B⟩

/-- C10: `detect_conflict` never reads its `client_vector_clock` argument —
its result is the same for any two values of that argument. -/
theorem detect_conflict_ignores_client_clock
    (local_entity server_entity : SyncEntity) (c1 c2 : VectorClock) :
    detect_conflict local_entity server_entity c1 =
      detect_conflict local_entity server_entity c2 := rfl

/-- C5 (amended): the organization vector clock aggregates ALL the
organization's tasks and comments — soft-deleted rows included — and at every
device it is the maximum of that device's counter over those rows. -/
theorem org_clock_merges_all_rows (st : ServerState) (org d : String) :
    vcGet (get_organization_vector_clock st org) d =
      ((st.tasks.filter (fun t => t.organization == org)).map
          (fun t => t.vector_clock)
        ++ (st.comments.filter (fun c => commentOrgIs st.tasks c org)).map
          (fun c => c.vector_clock)).foldl (fun n vc => max n (vcGet vc d)) 0 := by
  rw [get_organization_vector_clock, List.foldl_append, List.foldl_map,
    List.foldl_map,
    vcGet_foldl_rows (fun c : CommentRow => c.vector_clock),
    vcGet_foldl_rows (fun t : TaskRow => t.vector_clock)]
  rfl

/-- C5 (counterexample): a soft-deleted task's clock does contribute — the
source's aggregate differs from the claim's "non-deleted rows only" merge. -/
theorem org_clock_counts_deleted_cex :
    get_organization_vector_clock stDel "o" = [("a", 2)] ∧
    org_clock_of_live_entities stDel "o" = [] ∧
    get_organization_vector_clock stDel "o" ≠ org_clock_of_live_entities stDel "o" :=
  ⟨by decide, by decide, by decide⟩

/-- Membership in a pull collection implies the query's filter held. -/
theorem filter_of_mem_pull {α : Type} (key : α → Nat) {p : α → Bool}
    {l : List α} {n : Nat} {a : α}
    (h : a ∈ (sortByKey key (l.filter p)).take n) : p a = true :=
  (List.mem_filter.mp (mem_sortByKey.mp (List.take_subset _ _ h))).2

/-- A pull collection is ascending in its sort key. -/
theorem pairwise_of_pull {α : Type} (key : α → Nat) (l : List α) (n : Nat) :
    ((sortByKey key l).take n).Pairwise (fun a b => key a ≤ key b) :=
  List.Pairwise.sublist (List.take_sublist n _) (pairwise_sortByKey key l)

/-- C6: pull returns no task or comment last modified by the calling device,
no tombstone deleted from it, only unexpired tombstones; tasks and comments
come ascending by `updated_at` and every collection holds at most `limit`
entries. -/
theorem pull_filters_order_and_limit (st : ServerState) (user : UserRow)
    (device : String) (since limit now : Nat) :
    (∀ t ∈ (sync_pull st user device since limit now).tasks,
      t.last_modified_device ≠ some device) ∧
    (∀ c ∈ (sync_pull st user device since limit now).comments,
      c.last_modified_device ≠ some device) ∧
    (∀ tb ∈ (sync_pull st user device since limit now).tombstones,
      tb.deleted_from_device ≠ some device ∧ now < tb.expires_at) ∧
    (sync_pull st user device since limit now).tasks.Pairwise
      (fun a b => a.updated_at ≤ b.updated_at) ∧
    (sync_pull st user device since limit now).comments.Pairwise
      (fun a b => a.updated_at ≤ b.updated_at) ∧
    (sync_pull st user device since limit now).tasks.length ≤ limit ∧
    (sync_pull st user device since limit now).comments.length ≤ limit ∧
    (sync_pull st user device since limit now).tombstones.length ≤ limit := by
  refine ⟨?_, ?_, ?_, ?_, ?_, ?_, ?_, ?_⟩
  · intro t ht
    have hp := filter_of_mem_pull (fun t : TaskRow => t.updated_at) ht
    simp only [Bool.and_eq_true, Bool.not_eq_true', beq_eq_false_iff_ne] at hp
    exact hp.2
  · intro c hc
    have hp := filter_of_mem_pull (fun c : CommentRow => c.updated_at) hc
    simp only [Bool.and_eq_true, Bool.not_eq_true', beq_eq_false_iff_ne] at hp
    exact hp.2
  · intro tb htb
    have hp := filter_of_mem_pull (fun tb : TombstoneRow => tb.created_at) htb
    simp only [Bool.and_eq_true, Bool.not_eq_true', beq_eq_false_iff_ne,
      decide_eq_true_eq] at hp
    exact ⟨hp.2, hp.1.2⟩
  · exact pairwise_of_pull (fun t : TaskRow => t.updated_at) _ limit
  · exact pairwise_of_pull (fun c : CommentRow => c.updated_at) _ limit
  · exact List.length_take_le limit _
  · exact List.length_take_le limit _
  · exact List.length_take_le limit _

/-- C1 (code_bug evidence): at the "client behind" input (server clock
`{A:2}`, pushed clock `{A:1}`) the stale update IS applied — title, version
and vector clock are overwritten backwards — no conflict is recorded, and the
change is counted processed; the spec requires a silent drop with the row
unchanged and `processed = 0`. -/
theorem stale_update_is_applied :
    ((process_task_changes hash0 stBehind [⟨"t1", "update", dataBehind⟩]
        ⟨"u1", "org1"⟩ "devA" [("A", 1)] 50).1.tasks.map
      (fun t => (t.title, t.version, t.vector_clock))
        = [("Old title", 1, [("A", 1)])]) ∧
    (process_task_changes hash0 stBehind [⟨"t1", "update", dataBehind⟩]
        ⟨"u1", "org1"⟩ "devA" [("A", 1)] 50).2.1 = [] ∧
    (process_task_changes hash0 stBehind [⟨"t1", "update", dataBehind⟩]
        ⟨"u1", "org1"⟩ "devA" [("A", 1)] 50).2.2 = ["t1"] :=
  ⟨by decide, by decide, by decide⟩

/-- C2: a concurrent push update with no unresolvable field is written as the
field-level merge — status by rank, `vector_clock = Merge(incoming, server)`,
`version = max(incoming, server) + 1` — a Conflict row with strategy
`auto_resolved` is recorded, and no conflict is returned to the client. -/
theorem concurrent_resolvable_update_merges (hash : TaskContent → String)
    (st : ServerState) (data : TaskData) (user : UserRow) (device : String)
    (cvc : VectorClock) (now : Nat) (task : TaskRow) (ls : String)
    (hfound : taskLookupAll st.tasks data.id user.organization = some task)
    (hconc : compare_vector_clocks (data.vector_clock.getD [])
      task.vector_clock = ClockRelation.concurrent)
    (hres : (auto_resolve_task_conflict data (taskToData task)).2.2 = [])
    (hs : data.status = some ls) :
    autoMergeOutcome hash st data user device cvc now task ls := by
  have hdet : detect_conflict ⟨data.vector_clock.getD []⟩ ⟨task.vector_clock⟩ cvc
      = (true, some "Concurrent modification detected") := by
    rw [detect_conflict, hconc]
  have hr1 : (auto_resolve_task_conflict data (taskToData task)).2.1 = true := by
    rw [auto_resolve_task_resolved_iff, hres]
    rfl
  refine ⟨autoResolveRow hash task data
      (auto_resolve_task_conflict data (taskToData task)).1 user device now,
    ⟨"task", task.id, device, user.id, data.vector_clock.getD [],
      (autoResolveRow hash task data
        (auto_resolve_task_conflict data (taskToData task)).1 user device now).vector_clock,
      "Concurrent modification detected", some "auto_resolved", some now⟩,
    rfl, ?_, rfl, rfl, (taskLookupAll_some hfound).1, rfl, ?_, ?_, ?_, ?_⟩
  · rw [update_task.eq_def, hfound]
    dsimp only
    rw [hdet]
    dsimp only
    rw [hr1]
    rfl
  · show (taskSave hash true now _).status = _
    rw [taskSave_status]
    show ((auto_resolve_task_conflict data (taskToData task)).1.status).getD
      task.status = _
    rw [auto_resolve_task_status, hs]
    rfl
  · show (taskSave hash true now _).vector_clock = _
    rw [taskSave_vector_clock]
  · show (taskSave hash true now _).version = _
    rw [taskSave_version]
  · show task.version < (taskSave hash true now _).version
    rw [taskSave_version]
    show task.version < max (data.version.getD 1) task.version + 1
    exact Int.lt_add_one_iff.mpr (le_max_right _ _)

/-- C2 (witness): spec scenario 4 — server `{title "T", status todo,
clock {S:5}}`, push `{title "T", status in_progress, clock {D:3}}`. -/
theorem concurrent_resolvable_update_merges_witness :
    autoMergeOutcome hash0 stConc data4 ⟨"u1", "org"⟩ "D" [("D", 3)] 100
      task4 "in_progress" :=
  concurrent_resolvable_update_merges hash0 stConc data4 ⟨"u1", "org"⟩ "D"
    [("D", 3)] 100 task4 "in_progress" (by decide) (by decide) (by decide)
    (by decide)

/-- C3: a concurrent push update with at least one unresolvable field
persists a conflict row whose reason is `"Concurrent modification detected.
Unresolvable fields: <fields>"`, returns that row in the push response, and
leaves the stored tasks unchanged. -/
theorem concurrent_unresolvable_update_surfaces (hash : TaskContent → String)
    (st : ServerState) (data : TaskData) (user : UserRow) (device : String)
    (cvc : VectorClock) (now : Nat) (task : TaskRow)
    (hfound : taskLookupAll st.tasks data.id user.organization = some task)
    (hconc : compare_vector_clocks (data.vector_clock.getD [])
      task.vector_clock = ClockRelation.concurrent)
    (hbad : (auto_resolve_task_conflict data (taskToData task)).2.2 ≠ []) :
    surfacedConflictOutcome hash st data user device cvc now task := by
  have hdet : detect_conflict ⟨data.vector_clock.getD []⟩ ⟨task.vector_clock⟩ cvc
      = (true, some "Concurrent modification detected") := by
    rw [detect_conflict, hconc]
  have hr1 : (auto_resolve_task_conflict data (taskToData task)).2.1 = false := by
    rw [auto_resolve_task_resolved_iff]
    cases h : (auto_resolve_task_conflict data (taskToData task)).2.2 with
    | nil => exact absurd h hbad
    | cons a as => rfl
  refine ⟨⟨"task", task.id, device, user.id, data.vector_clock.getD [],
      task.vector_clock,
      "Concurrent modification detected" ++ ". Unresolvable fields: "
        ++ String.intercalate ", "
          (auto_resolve_task_conflict data (taskToData task)).2.2,
      none, none⟩,
    ?_, ?_, rfl, (taskLookupAll_some hfound).1, rfl, rfl, rfl⟩
  · rw [update_task.eq_def, hfound]
    dsimp only
    rw [hdet]
    dsimp only
    rw [hr1]
    rfl
  · show ("Concurrent modification detected" ++ ". Unresolvable fields: ") ++ _
      = _ ++ _
    rw [show ("Concurrent modification detected"
        ++ ". Unresolvable fields: " : String)
      = "Concurrent modification detected. Unresolvable fields: " from by decide]

/-- C3 (witness): spec scenario 5 — differing titles; the reason names
exactly the `title` field and the row is untouched. -/
theorem concurrent_unresolvable_update_surfaces_witness :
    surfacedConflictOutcome hash0 stConc data5 ⟨"u1", "org"⟩ "D" [("D", 3)]
      100 task4 :=
  concurrent_unresolvable_update_surfaces hash0 stConc data5 ⟨"u1", "org"⟩ "D"
    [("D", 3)] 100 task4 (by decide) (by decide) (by decide)

/-- C4 (amended, task half): a push update or delete naming a task that
exists only in a different organization never touches that row — the update
raises (duplicate-id insert) and is skipped, the delete is a silent no-op. -/
theorem cross_org_task_write_isolated (hash : TaskContent → String)
    (st : ServerState) (data ddata : TaskData) (user : UserRow)
    (device : String) (cvc : VectorClock) (now : Nat)
    (hex : ∃ t ∈ st.tasks, t.id = data.id)
    (hforeign : ∀ t ∈ st.tasks, t.id = data.id →
      t.organization ≠ user.organization) :
    update_task hash st data user device cvc now = Except.error () ∧
    delete_task st data.id ddata user device now = (st, none) := by
  have hnone : taskLookupAll st.tasks data.id user.organization = none := by
    rw [taskLookupAll, List.find?_eq_none]
    intro t ht
    simp only [Bool.and_eq_true, beq_iff_eq, not_and]
    intro hid horg
    exact hforeign t ht hid horg
  constructor
  · rw [update_task.eq_def, hnone]
    dsimp only
    obtain ⟨t0, ht0, hid0⟩ := hex
    have hany : st.tasks.any (fun t => t.id == data.id) = true :=
      List.any_eq_true.mpr ⟨t0, ht0, by simp [hid0]⟩
    cases hdt : data.title with
    | none => simp [create_task, hdt, Except.map]
    | some ttl => simp [create_task, hdt, hany, Except.map]
  · rw [delete_task.eq_def]
    have hfind : st.tasks.find? (fun t => t.deleted_at == none
        && t.id == data.id && t.organization == user.organization) = none := by
      rw [List.find?_eq_none]
      intro t ht
      simp only [Bool.and_eq_true, beq_iff_eq, not_and, and_imp]
      intro _ hid horg
      exact hforeign t ht hid horg
    rw [hfind]

/-- C4 (witness): the caller from `orgA` can neither update nor delete the
task `t9` of `orgB`. -/
theorem cross_org_task_write_isolated_witness :
    update_task hash0 stIso (emptyTaskData "t9") userA "devA" [] 99
      = Except.error () ∧
    delete_task stIso "t9" (emptyTaskData "t9") userA "devA" 99
      = (stIso, none) :=
  cross_org_task_write_isolated hash0 stIso (emptyTaskData "t9")
    (emptyTaskData "t9") userA "devA" [] 99
    ⟨baseTask "t9" "orgB" "B task" 1 [("b", 1)], by decide, by decide⟩
    (by decide)

/-- C4 (counterexample): the comment lookup has no organization filter — a
caller from `orgA` pushing an update of comment `c9` (which lives in `orgB`)
rewrites its content. -/
theorem cross_org_comment_update_writes :
    (update_comment stIso dataC4 userA "devA" [] 99).toOption.map
      (fun r => r.1.comments.map (fun c => c.content)) = some ["hacked"] :=
  by decide

/-- C7: a push create of a comment whose parent task is absent from the
caller's organization or soft-deleted changes nothing, records and returns no
conflict, and is still counted processed. -/
theorem orphan_comment_create_processed (st : ServerState) (user : UserRow)
    (device : String) (cvc : VectorClock) (now : Nat) (ch : CommentChange)
    (tid : String)
    (hop : ch.operation = "create")
    (htask : ch.data.task = some tid)
    (horphan : ((st.tasks.find? (fun t => t.id == tid
        && t.organization == user.organization)).all
      (fun t => t.deleted_at.isSome)) = true) :
    process_comment_changes st [ch] user device cvc now = (st, [], [ch.id]) := by
  have hcc : create_comment st ch.data user device now
      = Except.error CommentError.parentDeleted := by
    rw [create_comment.eq_def, htask]
    dsimp only
    cases hf : st.tasks.find? (fun t => t.id == tid
        && t.organization == user.organization) with
    | none => rfl
    | some t =>
      rw [hf] at horphan
      have h2 : t.deleted_at.isSome = true := horphan
      dsimp only
      rw [h2]
      rfl
  rw [process_comment_changes.eq_def]
  simp only [List.foldl_cons, List.foldl_nil, hop, hcc, List.nil_append]

/-- C7 (witness): spec scenario 6 — parent soft-deleted, the create of
`cNew` is processed, no comment row appears, no conflict. -/
theorem orphan_comment_create_processed_witness :
    process_comment_changes stOrphan [changeOrphan] ⟨"u1", "org"⟩ "d1" [("d", 1)]
      50 = (stOrphan, [], [changeOrphan.id]) :=
  orphan_comment_create_processed stOrphan ⟨"u1", "org"⟩ "d1" [("d", 1)] 50
    changeOrphan "tD" (by decide) (by decide) (by decide)

/-- A row saved with `recalculate_checksum=True` stores exactly the canonical
checksum of its own content. -/
theorem taskSave_checksum_canonical (hash : TaskContent → String) (now : Nat)
    (t : TaskRow) :
    (taskSave hash true now t).checksum =
      some (calculate_checksum hash (taskSave hash true now t)) := by
  rw [taskSave_recalc_checksum, calculate_checksum_taskSave]

/-- C8 (amended): for the auto-resolved merge write the version strictly
increases past the server's; for the accepted AFTER write and the applied
manual resolution the version is taken from the payload (no forced increase);
in all three accepted task writes the stored checksum equals the SHA-256 of
the canonical content of the row as stored. -/
theorem accepted_task_write_version_checksum (hash : TaskContent → String)
    (task : TaskRow) (data resolved : TaskData) (user : UserRow)
    (device : String) (now : Nat) :
    task.version < (autoResolveRow hash task data resolved user device now).version ∧
    (autoResolveRow hash task data resolved user device now).checksum =
      some (calculate_checksum hash
        (autoResolveRow hash task data resolved user device now)) ∧
    (acceptRow hash task data user device now).version
      = data.version.getD task.version ∧
    (acceptRow hash task data user device now).checksum =
      some (calculate_checksum hash (acceptRow hash task data user device now)) ∧
    (applyResolutionRow hash task resolved user now).version
      = resolved.version.getD task.version ∧
    (applyResolutionRow hash task resolved user now).checksum =
      some (calculate_checksum hash (applyResolutionRow hash task resolved user now)) := by
  refine ⟨?_, taskSave_checksum_canonical hash now _, ?_,
    taskSave_checksum_canonical hash now _, ?_,
    taskSave_checksum_canonical hash now _⟩
  · show task.version < (taskSave hash true now _).version
    rw [taskSave_version]
    show task.version < max (data.version.getD 1) task.version + 1
    exact Int.lt_add_one_iff.mpr (le_max_right _ _)
  · show (taskSave hash true now _).version = _
    rw [taskSave_version]
  · show (taskSave hash true now _).version = _
    rw [taskSave_version]

/-- C8 (counterexample): an accepted AFTER update (incoming clock `{a:2}`
dominates server `{a:1}`) carrying version 1 REGRESSES the row's version from
5 to 1 — `version` does not strictly increase on this accepted write. -/
theorem accepted_write_version_regresses :
    (update_task hash0 stVer dataVer ⟨"u1", "org"⟩ "d8" [] 7).toOption.map
      (fun r => (r.1.tasks.map (fun t => t.version), r.2))
        = some ([1], none) ∧
    stVer.tasks.map (fun t => t.version) = [5] ∧ ¬ ((5 : Int) < 1) :=
  ⟨by decide, by decide, by decide⟩

end TaskSync
